import Mathlib

/-!
Shallow embedding of the entity-context state-management core of the
rx-angular-patterns repository, together with theorems settling the
frozen claims about it.

JS plain objects are modelled extensionally as lookup functions
`String → Option JsVal`; an absent key maps to `none` (JS `undefined`).
The `WithContext` record mirrors the TypeScript type of the same name
(src/app/utils/rx/state/types.ts): a payload plus optional
`loading` / `error` / `complete` fields, where `Option` tracks field
presence so that JS object-spread semantics can be stated faithfully.
-/

namespace RxPatterns

/-- Primitive JS values that occur in the state layer: `null`, booleans
(`loading` / `error` flags), strings (error messages, ids) and numbers. -/
inductive JsVal where
  | vNull
  | vBool (b : Bool)
  | vStr (s : String)
  | vNum (n : Int)
deriving DecidableEq, Repr

/-- A JS plain object, modelled by its lookup function; `none` is an
absent key (reads as `undefined`). -/
def JsObj : Type := String → Option JsVal

/-- The empty JS object. -/
def jsEmpty : JsObj := fun _ => none

/-- JS object spread of two objects, second over first: a binding of `b`
wins over the binding of `a` at the same key. -/
def spreadObj (a b : JsObj) : JsObj :=
  fun k =>
    match b k with
    | some v => some v
    | none => a k

/-- Field-level JS spread: a field present in the update (`some`)
overrides the old field, an absent field keeps the old one. -/
def jsOverride {β : Type} (upd old : Option β) : Option β :=
  match upd with
  | some x => some x
  | none => old

/-- TypeScript `WithContext<T>` (src/app/utils/rx/state/types.ts):
`value: T` together with optional `loading` / `error` / `complete`
fields. `error` holds a `JsVal` because the code stores `false`, `null`
and message strings in it at different places. -/
structure WithContext (α : Type) where
  value : α
  loading : Option Bool := none
  error : Option JsVal := none
  complete : Option Bool := none

/-- A partial `WithContext<T>` (TypeScript `Partial<WithContext<T>>`):
every field, `value` included, may be absent. -/
structure CtxUpd (α : Type) where
  value : Option α := none
  loading : Option Bool := none
  error : Option JsVal := none
  complete : Option Bool := none

/-- An entity entry: a `WithContext` whose payload may itself be absent
(`null` / `undefined`), as in entries created by `setEntityLoading` or
`withContextError`. -/
abbrev ECtx := WithContext (Option JsObj)

/-- The inner entity mapping of an `EntityContextCollection<T>`:
`Record<string, WithContext<T>>`, modelled by its lookup function. -/
abbrev EMap := String → Option ECtx

/-- JS spread of two entity mappings, second over first (entries of the
update replace entries of the old mapping wholesale at the same key). -/
def spreadEMap (a b : EMap) : EMap :=
  fun k =>
    match b k with
    | some e => some e
    | none => a k

/-- Model of `patch(object, upd)` from the external
rx-angular cdk transformations library, applied at the `WithContext`
shape: a shallow JS object spread, every field present in `upd`
overrides the corresponding field of `object`. -/
def patch {α : Type} (old : WithContext α) (upd : CtxUpd α) : WithContext α :=
  { value := upd.value.getD old.value
    loading := jsOverride upd.loading old.loading
    error := jsOverride upd.error old.error
    complete := jsOverride upd.complete old.complete }

/-- `mergeEntityContext(oldState, newPartial)`
(src/app/utils/rx/state/types.ts, lines 274-281): first `patch` at the
outer level, then the `value` field is re-assigned to
`patch(oldState.value, resultState.value)`, a shallow spread of the old
payload with the patched payload. The source function is generic in the
payload type; `spread` is the JS object spread at that payload type
(`spreadEMap` for entity collections, `spreadObj` for plain objects).
In the source `oldState || createInitialContext()` and the `|| \x7b\x7d`
guards only replace `null`/`undefined` operands, which a Lean structure
value cannot be, so they drop out of the embedding. -/
def mergeEntityContext {α : Type} (spread : α → α → α)
    (old : WithContext α) (upd : CtxUpd α) : WithContext α :=
  let r := patch old upd
  { r with value := spread old.value r.value }

/-- `mergeContextState(currentState, update)`
(src/app/utils/rx/state/entity-context.utils.ts, lines 300-307):
spread of `currentState` then `update`, with
`value: update.value ?? currentState.value` — the update's `value`
replaces the old one wholesale whenever the update carries one.
Instantiated at plain-object payloads, where the difference from a
structural merge is observable. -/
def mergeContextState (cur : WithContext JsObj) (upd : CtxUpd JsObj) :
    WithContext JsObj :=
  { value := upd.value.getD cur.value
    loading := jsOverride upd.loading cur.loading
    error := jsOverride upd.error cur.error
    complete := jsOverride upd.complete cur.complete }

/-- `updateEntity(state, entityId, update)`
(src/app/utils/rx/state/entity-context.utils.ts, lines 169-185).
The literal reads `state.value[entityId].value`; when the entry is
absent that member access is on `undefined` and throws a `TypeError`,
so the embedding returns `none` in that case. When the entry exists,
its `value` (or the empty object when it has none — spreading
`undefined` yields the empty object) is shallow-merged with `update`,
the entry's other fields and all other entries are kept. -/
def updateEntity (state : WithContext EMap) (entityId : String)
    (upd : JsObj) : Option (WithContext EMap) :=
  match state.value entityId with
  | none => none
  | some entry =>
      some { state with
        value := fun k =>
          if k = entityId then
            some { entry with
              value := some (spreadObj (entry.value.getD jsEmpty) upd) }
          else state.value k }

/-- `removeEntity(state, entityId)`
(src/app/utils/rx/state/entity-context.utils.ts, lines 195-204):
rest-destructuring drops the key from the inner mapping; the other
fields of the collection are spread through unchanged. -/
def removeEntity (state : WithContext EMap) (entityId : String) :
    WithContext EMap :=
  { state with
    value := fun k => if k = entityId then none else state.value k }

/-- `setEntityLoading(state, entityId)`
(src/app/utils/rx/state/entity-context.utils.ts, lines 142-155):
spreads the existing entry (the empty object when the entry is absent)
and sets `loading: true, error: false` on it. -/
def setEntityLoading (state : WithContext EMap) (entityId : String) :
    WithContext EMap :=
  { state with
    value := fun k =>
      if k = entityId then
        some { (state.value entityId).getD ⟨none, none, none, none⟩ with
               loading := some true
               error := some (JsVal.vBool false) }
      else state.value k }

/-- `selectEntity(id)` (entity-selectors, src/app/utils/rx/state/types.ts
part, lines 56-58): `state?.value?.[id]?.value` with optional chaining —
an absent entry or an entry without a `value` reads as `undefined`. -/
def selectEntity (id : String) (state : WithContext EMap) : Option JsObj :=
  (state.value id).bind (fun e => e.value)

/-- JS `String(v)` conversion for the value forms the embedding covers
(an absent id field stringifies as `undefined` does in JS). -/
def jsToString : Option JsVal → String
  | some (JsVal.vStr s) => s
  | some (JsVal.vNum n) => toString n
  | some (JsVal.vBool true) => "true"
  | some (JsVal.vBool false) => "false"
  | some JsVal.vNull => "null"
  | none => "undefined"

/-- The fresh entry built per list item by `updateCollection`:
`value: entity, loading: false, error: false` (note `error` is the
boolean `false` in the source, not `undefined`). -/
def freshEntry (e : JsObj) : ECtx :=
  { value := some e, loading := some false, error := some (JsVal.vBool false) }

/-- One step of the `reduce` inside `updateCollection`: spread the
accumulator and add the entry keyed by `String(entity[idKey])`. -/
def ucStep (idKey : String) (acc : EMap) (e : JsObj) : EMap :=
  fun k => if k = jsToString (e idKey) then some (freshEntry e) else acc k

/-- `updateCollection(entities, idKey)` — the spec's `fromList`
(src/app/utils/rx/state/entity-context.utils.ts, lines 253-267):
a left fold over the entity list starting from the empty object,
each item contributing a fresh `WithContext` entry. -/
def updateCollection (entities : List JsObj) (idKey : String) : EMap :=
  entities.foldl (ucStep idKey) (fun _ => none)

/-- The default loading flag name
(src/app/utils/rx/state/entity-context.utils.ts, line 8). -/
def defaultLoadingProp : String := "loading"

/-- The rxjs `startWith` operator on a finite completed stream,
modelled as an emission list: the extra value is emitted first. -/
def startWith {β : Type} (v : β) (src : List β) : List β := v :: src

/-- The rxjs `endWith` operator on a finite completed stream: the extra
value is emitted after the source completes, as the last element. -/
def endWith {β : Type} (v : β) (src : List β) : List β := src ++ [v]

/-- The synthetic marker object of `withLoadingEmission`: a one-key
object mapping the flag name to a boolean. -/
def loadingMarker (property : String) (b : Bool) : JsObj :=
  fun k => if k = property then some (JsVal.vBool b) else none

/-- An element of the wrapped stream: either a synthetic marker object
(left) or a value of the underlying producer (right). This models the
TypeScript intersection cast `T & LoadingState<K>` on the emissions. -/
abbrev Emission (α : Type) := JsObj ⊕ α

/-- `withLoadingEmission(property?)`
(src/app/utils/rx/state/entity-context.utils.ts, lines 57-69):
`property ?? defaultLoadingProp` picks the flag name, then the source
is piped through `startWith` of the true marker and `endWith` of the
false marker. Finite completed producers are modelled as emission
lists, so a fresh subscription replays the same bracket. -/
def withLoadingEmission {α : Type} (property : Option String)
    (src : List (Emission α)) : List (Emission α) :=
  let p := property.getD defaultLoadingProp
  endWith (Sum.inl (loadingMarker p false))
    (startWith (Sum.inl (loadingMarker p true)) src)

/-- An error object as carried by a fetch failure: the embedding keeps
only its `message` field, the one the code reads. -/
structure JsErr where
  message : Option String

/-- `withContextError(error, id?)` (src/app/utils/rx/state/types.ts
part, lines 248-254). With an id: a one-entry mapping whose entry has
`value: null`, `loading: false`, `error: error.message` (no fallback
at the entity level). Without an id: the empty mapping. The outer
`error` is `error.message || 'An error occurred'` — JS `||`, so an
absent or empty message falls back to the default string. -/
def withContextError (err : JsErr) (id : Option String) : CtxUpd EMap :=
  let msg : String :=
    match err.message with
    | some m => if m = "" then "An error occurred" else m
    | none => "An error occurred"
  { value := some
      (match id with
       | some i =>
           fun k =>
             if k = i then
               some { value := none
                      loading := some false
                      error := err.message.map JsVal.vStr }
             else none
       | none => fun _ => none)
    loading := some false
    error := some (JsVal.vStr msg) }

/-- The state model of `GlobalTodosState`
(src/app/state/todos.state.ts): one `todos` entity collection. -/
structure TodosStateModel where
  todos : WithContext EMap

/-- The fetch-all reducer passed to `connect('todos', ..., fn)` in
`GlobalTodosState` (src/app/state/todos.state.ts, lines 52-59): the
new `todos` slice takes its `value` from
`mergeEntityContext(state.todos, newPartial).value`, and `loading` /
`error` directly from the partial. The `...state` spread contributes
only the state model's `todos` key, which is not a field of the
`WithContext` shape, and no `complete` field is written. -/
def fetchTodosReducer (state : TodosStateModel) (upd : CtxUpd EMap) :
    WithContext EMap :=
  { value := (mergeEntityContext spreadEMap state.todos upd).value
    loading := upd.loading
    error := upd.error
    complete := none }

/-- Discrete events seen by the `exhaustMap` stage of the fetch-all
pipeline (src/app/state/todos.state.ts, lines 42-50): a `dispatch` of
the `fetchTodos` action arriving at the operator, or the `settle` of
the in-flight inner observable (the wrapped `getTodos()` call
completing or erroring). -/
inductive FetchEvent where
  | dispatch
  | settle
deriving DecidableEq, Repr

/-- One step of the rxjs `exhaustMap` semantics, as used by the
fetch-all pipeline: the state is (inner observable active?, calls made
to the fetch interface so far). A dispatch while no inner is active
subscribes a new inner — exactly one `getTodos()` call; a dispatch
while an inner is active is dropped (not queued, not cancelled); a
settle deactivates the inner. -/
def exhaustStep (st : Bool × Nat) (ev : FetchEvent) : Bool × Nat :=
  match ev, st with
  | FetchEvent.dispatch, (false, n) => (true, n + 1)
  | FetchEvent.dispatch, (true, n) => (true, n)
  | FetchEvent.settle, (_, n) => (false, n)

/-- Run of the exhaust machine over an event sequence, starting idle
with no calls made. -/
def exhaustRun (evs : List FetchEvent) : Bool × Nat :=
  evs.foldl exhaustStep (false, 0)

/-- Number of fetch-interface calls (`listEntities` / `getTodos`) made
over an event sequence. -/
def exhaustCalls (evs : List FetchEvent) : Nat := (exhaustRun evs).2

/-- Whether a prior dispatch is still in flight after an event
sequence. -/
def inFlightAfter (evs : List FetchEvent) : Bool := (exhaustRun evs).1

/-- Observable per-action tracking state of the dispatcher proxy
(src/app/utils/rx/actions-with-tracking/proxy.ts): the current value
of the `loading$` behavior subject, the last emissions of the
`complete$` and `error$` subjects (`none` = nothing emitted yet; the
code emits the JS `null` literal to clear), the sequence of errors
reported to the shared `ErrorHandler` sink, and the values pushed into
the action's subject. -/
structure ActionState where
  loadingLast : Bool
  completeLast : Option Bool
  errorLast : Option JsVal
  sink : List JsVal
  emitted : List JsVal
deriving Repr

/-- The tracking state before any dispatch: `loading$` starts at
`false`, nothing emitted, nothing reported. -/
def initialActionState : ActionState :=
  { loadingLast := false, completeLast := none, errorLast := none
    sink := [], emitted := [] }

/-- A registered payload transform; `Except.error e` models the
transform throwing `e`. -/
abbrev Transform := JsVal → Except JsVal JsVal

/-- The internal `dispatch(value, prop)` helper
(src/app/utils/rx/actions-with-tracking/proxy.ts, lines 117-128):
applies the registered transform inside a try/catch; on success the
value is pushed into the action subject, on a throw the error is
passed to `errorHandler?.handleError` and swallowed — `dispatch`
itself never throws, and the action's `error$` subject is not touched
here. -/
def dispatchInner (transform : Option Transform) (v : JsVal)
    (s : ActionState) : ActionState :=
  match transform with
  | none => { s with emitted := s.emitted ++ [v] }
  | some f =>
      match f v with
      | Except.ok w => { s with emitted := s.emitted ++ [w] }
      | Except.error e => { s with sink := s.sink ++ [e] }

/-- The dispatcher closure returned by the proxy `get` for a plain
action name (src/app/utils/rx/actions-with-tracking/proxy.ts, lines
195-223): unless `silent`, push `true` on `loading$`; push `false` on
`complete$` and the JS `null` on `error$`; then call the internal
`dispatch`. Because `dispatchInner` catches every transform throw, the
surrounding catch block of the closure (which would push the cause on
`error$` and reset `loading$`) is unreachable for transform failures. -/
def dispatchCall (transform : Option Transform) (silent : Bool)
    (v : JsVal) (s : ActionState) : ActionState :=
  let s1 := { s with loadingLast := if silent then s.loadingLast else true }
  let s2 := { s1 with completeLast := some false
                      errorLast := some JsVal.vNull }
  dispatchInner transform v s2

/-! Concrete sample values used by witnesses and counterexamples. -/

/-- A sample todo payload. -/
def sampleTodo : JsObj :=
  fun k => if k = "name" then some (JsVal.vStr "A") else none

/-- A sample entity entry wrapping `sampleTodo`. -/
def sampleEntry : ECtx :=
  { value := some sampleTodo, loading := some false, error := some JsVal.vNull }

/-- A collection holding only entity "1". -/
def collOne : WithContext EMap :=
  { value := fun k => if k = "1" then some sampleEntry else none
    loading := some false
    error := some (JsVal.vBool false) }

/-- A collection holding only entity "2". -/
def collTwo : WithContext EMap :=
  { value := fun k => if k = "2" then some sampleEntry else none
    loading := some false
    error := some (JsVal.vBool false) }

/-- The empty collection, as produced by `createInitialEntityState`. -/
def emptyColl : WithContext EMap :=
  { value := fun _ => none
    loading := some false
    error := some (JsVal.vBool false) }

/-- A partial update whose value mapping touches only entity "1". -/
def updOnlyOne : CtxUpd EMap :=
  { value := some (fun k => if k = "1" then some sampleEntry else none)
    loading := some false }

/-- The spec's example payload: a two-field object with a = 1, b = 2. -/
def objAB : JsObj :=
  fun k =>
    if k = "a" then some (JsVal.vNum 1)
    else if k = "b" then some (JsVal.vNum 2)
    else none

/-- The spec's example update payload: only b = 3. -/
def objB3 : JsObj :=
  fun k => if k = "b" then some (JsVal.vNum 3) else none

/-- A context value carrying `objAB`. -/
def ctxAB : WithContext JsObj := { value := objAB, loading := some false }

/-- A partial update carrying only the payload `objB3`. -/
def updB3 : CtxUpd JsObj := { value := some objB3 }

/-- A sample partial entity value. -/
def updName : JsObj :=
  fun k => if k = "name" then some (JsVal.vStr "B") else none

/-- The result of updating entity "1" of `collOne` with `updName`. -/
def collOneUpdated : WithContext EMap :=
  { collOne with
    value := fun k2 =>
      if k2 = "1" then
        some { sampleEntry with
          value := some (spreadObj (sampleEntry.value.getD jsEmpty) updName) }
      else collOne.value k2 }

/-- A sample entity with an "id" field. -/
def todoWithId : JsObj :=
  fun k => if k = "id" then some (JsVal.vStr "1") else none

/-! Helper lemmas about the `updateCollection` fold. -/

/-- Every entry produced by the fold comes from a list item (or was
already present in the accumulator). -/
theorem ucFold_some (l : List JsObj) (idKey : String) :
    ∀ (acc : EMap) (k : String) (c : ECtx),
      l.foldl (ucStep idKey) acc k = some c →
      (∃ e, e ∈ l ∧ jsToString (e idKey) = k ∧ c = freshEntry e) ∨
        acc k = some c := by
  induction l with
  | nil => intro acc k c h; exact Or.inr h
  | cons x xs ih =>
      intro acc k c h
      rw [List.foldl_cons] at h
      rcases ih (ucStep idKey acc x) k c h with hmem | hacc
      · rcases hmem with ⟨e, hel, hkey, hc⟩
        exact Or.inl ⟨e, List.mem_cons_of_mem _ hel, hkey, hc⟩
      · unfold ucStep at hacc
        by_cases hx : k = jsToString (x idKey)
        · rw [if_pos hx] at hacc
          injection hacc with hcc
          exact Or.inl ⟨x, List.mem_cons_self _ _, hx.symm, hcc.symm⟩
        · rw [if_neg hx] at hacc
          exact Or.inr hacc

/-- The fold never erases a binding that is already present. -/
theorem ucFold_mono (l : List JsObj) (idKey : String) :
    ∀ (acc : EMap) (k : String), acc k ≠ none →
      l.foldl (ucStep idKey) acc k ≠ none := by
  induction l with
  | nil => intro acc k h; exact h
  | cons x xs ih =>
      intro acc k h
      rw [List.foldl_cons]
      apply ih
      unfold ucStep
      by_cases hx : k = jsToString (x idKey)
      · rw [if_pos hx]; simp
      · rw [if_neg hx]; exact h

/-- Every list item contributes a binding at its stringified key. -/
theorem ucFold_mem (l : List JsObj) (idKey : String) :
    ∀ (acc : EMap) (e : JsObj), e ∈ l →
      l.foldl (ucStep idKey) acc (jsToString (e idKey)) ≠ none := by
  induction l with
  | nil => intro acc e he; exact absurd he (List.not_mem_nil e)
  | cons x xs ih =>
      intro acc e he
      rw [List.foldl_cons]
      rcases List.mem_cons.mp he with rfl | hmem
      · apply ucFold_mono
        unfold ucStep
        rw [if_pos rfl]
        simp
      · exact ih (ucStep idKey acc x) e hmem

/-- C1: for every entity context collection `C` and every partial update
`P` whose value mapping touches only the entity key `k`,
`mergeEntityContext(C, P)` leaves every entry with key different from
`k` identical to that entry in `C` — untouched entities are never
discarded or altered. -/
theorem mergeEntityContext_untouched_entries (C : WithContext EMap)
    (P : CtxUpd EMap) (k : String)
    (h : ∀ v, P.value = some v → ∀ k', k' ≠ k → v k' = none) :
    ∀ k', k' ≠ k →
      (mergeEntityContext spreadEMap C P).value k' = C.value k' := by
  intro k' hk
  cases hv : P.value with
  | none =>
      simp only [mergeEntityContext, patch, spreadEMap, hv, Option.getD_none]
      cases C.value k' <;> simp
  | some v =>
      have hv' := h v hv k' hk
      simp only [mergeEntityContext, patch, spreadEMap, hv, Option.getD_some, hv']

/-- C1 witness: merging a partial that only carries entity "1" into a
collection holding entity "2" leaves entity "2"'s entry unchanged. -/
theorem mergeEntityContext_untouched_entries_witness :
    (mergeEntityContext spreadEMap collTwo updOnlyOne).value "2" =
      collTwo.value "2" :=
  mergeEntityContext_untouched_entries collTwo updOnlyOne "1"
    (by
      intro v hv k' hk
      have hveq : v = fun k => if k = "1" then some sampleEntry else none := by
        have h2 := hv
        simp only [updOnlyOne, Option.some.injEq] at h2
        exact h2.symm
      subst hveq
      simp [hk])
    "2" (by decide)

/-- C2 counterexample: `mergeContextState` replaces the `value` field
wholesale. With old value a = 1, b = 2 and partial value b = 3, the
merged value has no "a" binding, contradicting the claimed shallow
key-wise union a = 1, b = 3. -/
theorem mergeContextState_replaces_value :
    (mergeContextState ctxAB updB3).value "a" ≠ some (JsVal.vNum 1) := by
  decide

/-- C2 (amended): every field present in the partial overrides the old
field for both merge functions; `mergeEntityContext` structurally
merges the `value` payload (shallow key-wise union, so the spec's
a = 1, b = 2 merged with b = 3 yields a = 1, b = 3), while
`mergeContextState` replaces the `value` wholesale whenever the partial
carries one and keeps the old value only when it does not. -/
theorem merge_value_semantics :
    (∀ (cur : WithContext JsObj) (upd : CtxUpd JsObj),
        (∀ l, upd.loading = some l →
          (mergeContextState cur upd).loading = some l) ∧
        (∀ e, upd.error = some e →
          (mergeContextState cur upd).error = some e) ∧
        (∀ m, upd.value = some m → (mergeContextState cur upd).value = m) ∧
        (upd.value = none →
          (mergeContextState cur upd).value = cur.value)) ∧
    (∀ (old : WithContext JsObj) (upd : CtxUpd JsObj),
        (∀ l, upd.loading = some l →
          (mergeEntityContext spreadObj old upd).loading = some l) ∧
        (∀ m, upd.value = some m → ∀ key,
          (mergeEntityContext spreadObj old upd).value key =
            match m key with
            | some v => some v
            | none => old.value key)) ∧
    ((mergeEntityContext spreadObj ctxAB updB3).value "a" =
        some (JsVal.vNum 1) ∧
     (mergeEntityContext spreadObj ctxAB updB3).value "b" =
        some (JsVal.vNum 3)) := by
  refine ⟨fun cur upd => ⟨?_, ?_, ?_, ?_⟩, fun old upd => ⟨?_, ?_⟩, ?_, ?_⟩
  · intro l hl; simp [mergeContextState, jsOverride, hl]
  · intro e he; simp [mergeContextState, jsOverride, he]
  · intro m hm; simp [mergeContextState, hm]
  · intro hm; simp [mergeContextState, hm]
  · intro l hl; simp [mergeEntityContext, patch, jsOverride, hl]
  · intro m hm key
    simp only [mergeEntityContext, patch, spreadObj, hm, Option.getD_some]
  · decide
  · decide

/-- C2 witness: at the spec's concrete example, `mergeContextState`
yields exactly the replacing payload b = 3, while `mergeEntityContext`
keeps a = 1. -/
theorem merge_value_semantics_witness :
    (mergeContextState ctxAB updB3).value = objB3 ∧
    (mergeEntityContext spreadObj ctxAB updB3).value "a" =
      some (JsVal.vNum 1) :=
  ⟨(merge_value_semantics.1 ctxAB updB3).2.2.1 objB3 rfl,
   merge_value_semantics.2.2.1⟩

/-- C3: for a producer that emits exactly one value `x` and then
completes, `withLoadingEmission()` yields exactly the three-element
sequence loading-true marker, `x`, loading-false marker: the true
marker strictly precedes the value and the false marker is last. -/
theorem withLoadingEmission_single_bracket {α : Type} (x : α) :
    withLoadingEmission none [Sum.inr x] =
      [Sum.inl (loadingMarker defaultLoadingProp true), Sum.inr x,
       Sum.inl (loadingMarker defaultLoadingProp false)] ∧
    (withLoadingEmission none [Sum.inr x]).head? =
      some (Sum.inl (loadingMarker defaultLoadingProp true)) ∧
    (withLoadingEmission none [Sum.inr x]).getLast? =
      some (Sum.inl (loadingMarker defaultLoadingProp false)) :=
  ⟨rfl, rfl, rfl⟩

/-- C4: merging the collection-level error result of a fetch-all
failure carrying message "boom" into any prior state yields a `todos`
slice whose `error` is "boom", whose `loading` is `false`, and whose
value mapping is unchanged — the failure is recorded, not thrown. -/
theorem fetchAll_failure_state (s : TodosStateModel) :
    (fetchTodosReducer s (withContextError ⟨some "boom"⟩ none)).error =
      some (JsVal.vStr "boom") ∧
    (fetchTodosReducer s (withContextError ⟨some "boom"⟩ none)).loading =
      some false ∧
    ∀ k, (fetchTodosReducer s (withContextError ⟨some "boom"⟩ none)).value k =
      s.todos.value k :=
  ⟨rfl, rfl, fun _ => rfl⟩

/-- C5: under the exhaust semantics of the fetch-all pipeline, the
two-dispatch scenario makes exactly one fetch call, and in general a
dispatch arriving while a prior one is in flight adds no call. -/
theorem exhaust_drops_overlapping :
    exhaustCalls [FetchEvent.dispatch, FetchEvent.dispatch,
      FetchEvent.settle] = 1 ∧
    ∀ pre, inFlightAfter pre = true →
      exhaustCalls (pre ++ [FetchEvent.dispatch]) = exhaustCalls pre := by
  constructor
  · rfl
  · intro pre h
    unfold exhaustCalls inFlightAfter exhaustRun at *
    rw [List.foldl_append]
    rcases hp : List.foldl exhaustStep (false, 0) pre with ⟨fl, n⟩
    rw [hp] at h
    simp only at h
    subst h
    rfl

/-- C5 witness: after one dispatch a request is in flight, and a second
dispatch leaves the call count unchanged. -/
theorem exhaust_drops_overlapping_witness :
    exhaustCalls ([FetchEvent.dispatch] ++ [FetchEvent.dispatch]) =
      exhaustCalls [FetchEvent.dispatch] :=
  exhaust_drops_overlapping.2 [FetchEvent.dispatch] rfl

/-- C6 (evaluation at the failing input): dispatching through a
transform that throws "boom" leaves the action's error signal at the
clearing `null` — never the thrown cause — while the cause goes only to
the shared error sink, `loading` is left `true`, and nothing is
emitted; the call itself returns normally. -/
theorem dispatch_transform_throw_behavior :
    (dispatchCall (some (fun _ => Except.error (JsVal.vStr "boom"))) false
        (JsVal.vNum 1) initialActionState).errorLast = some JsVal.vNull ∧
    (dispatchCall (some (fun _ => Except.error (JsVal.vStr "boom"))) false
        (JsVal.vNum 1) initialActionState).sink = [JsVal.vStr "boom"] ∧
    (dispatchCall (some (fun _ => Except.error (JsVal.vStr "boom"))) false
        (JsVal.vNum 1) initialActionState).loadingLast = true ∧
    (dispatchCall (some (fun _ => Except.error (JsVal.vStr "boom"))) false
        (JsVal.vNum 1) initialActionState).emitted = [] :=
  ⟨rfl, rfl, rfl, rfl⟩

/-- C7 counterexample: `updateEntity` on an id absent from the
collection does not return a collection — the member access
`state.value[entityId].value` is on `undefined` and throws, modelled
as `none`. -/
theorem updateEntity_absent_throws :
    updateEntity emptyColl "9" updName = none := rfl

/-- C7 (amended): when the entry for `k` exists, `updateEntity` shallow
merges the partial into the entry's value, preserves the entry's other
fields and every other entry, and preserves the collection-level
fields; when `k` is absent, the operation fails instead of creating
the entry. -/
theorem updateEntity_props (C : WithContext EMap) (k : String) (P : JsObj) :
    (∀ entry C', C.value k = some entry → updateEntity C k P = some C' →
        C'.value k = some { entry with
            value := some (spreadObj (entry.value.getD jsEmpty) P) } ∧
        (∀ k', k' ≠ k → C'.value k' = C.value k') ∧
        C'.loading = C.loading ∧ C'.error = C.error ∧
        C'.complete = C.complete) ∧
    (∀ entry, C.value k = some entry → updateEntity C k P ≠ none) ∧
    (C.value k = none → updateEntity C k P = none) := by
  refine ⟨?_, ?_, ?_⟩
  · intro entry C' he hC'
    unfold updateEntity at hC'
    rw [he] at hC'
    simp only [Option.some.injEq] at hC'
    subst hC'
    refine ⟨by simp, fun k' hk => by simp [hk], rfl, rfl, rfl⟩
  · intro entry he
    unfold updateEntity
    rw [he]
    simp
  · intro he
    unfold updateEntity
    rw [he]

/-- C7 witness: updating present entity "1" succeeds and leaves entity
"2" and the collection flags untouched. -/
theorem updateEntity_props_witness :
    updateEntity collOne "1" updName ≠ none ∧
    collOneUpdated.value "2" = collOne.value "2" ∧
    collOneUpdated.loading = collOne.loading :=
  ⟨(updateEntity_props collOne "1" updName).2.1 sampleEntry rfl,
   ((updateEntity_props collOne "1" updName).1 sampleEntry collOneUpdated
      rfl rfl).2.1 "2" (by decide),
   ((updateEntity_props collOne "1" updName).1 sampleEntry collOneUpdated
      rfl rfl).2.2.1⟩

/-- C8: `removeEntity` is idempotent, and removing a key absent from
the collection is a no-op returning the collection unchanged rather
than an error. -/
theorem removeEntity_idem_absent (C : WithContext EMap) (k : String) :
    removeEntity (removeEntity C k) k = removeEntity C k ∧
    (C.value k = none → removeEntity C k = C) := by
  constructor
  · unfold removeEntity
    congr 1
    funext k'
    by_cases h : k' = k <;> simp [h]
  · intro h
    obtain ⟨v, l, e, c⟩ := C
    simp only at h
    unfold removeEntity
    congr 1
    funext k'
    by_cases hk : k' = k
    · subst hk; simpa using h.symm
    · simp [hk]

/-- C8 witness: removing the absent key "9" twice from a concrete
collection equals removing it once, and removing it once returns the
collection unchanged. -/
theorem removeEntity_idem_absent_witness :
    removeEntity (removeEntity collOne "9") "9" = removeEntity collOne "9" ∧
    removeEntity collOne "9" = collOne :=
  ⟨(removeEntity_idem_absent collOne "9").1,
   (removeEntity_idem_absent collOne "9").2 rfl⟩

/-- C9 counterexample: the entry built by `updateCollection` for a
sample entity has `error` equal to the boolean `false`, not
`undefined` as the claim states. -/
theorem updateCollection_error_not_undefined :
    ¬ ((updateCollection [todoWithId] "id" "1").map
        (fun c => c.error) = some none) := by
  decide

/-- C9 (amended): `updateCollection` builds one fresh entry per list
item keyed by the item's id field converted to string; every entry
comes from such an item and has `loading` equal to `false` and `error`
equal to the boolean `false` (not `undefined`). -/
theorem updateCollection_entries (entities : List JsObj) (idKey : String) :
    (∀ k c, updateCollection entities idKey k = some c →
        ∃ e, e ∈ entities ∧ jsToString (e idKey) = k ∧ c = freshEntry e) ∧
    (∀ k c, updateCollection entities idKey k = some c →
        c.loading = some false ∧ c.error = some (JsVal.vBool false) ∧
        c.value ≠ none) ∧
    (∀ e, e ∈ entities →
        updateCollection entities idKey (jsToString (e idKey)) ≠ none) := by
  refine ⟨?_, ?_, ?_⟩
  · intro k c h
    rcases ucFold_some entities idKey (fun _ => none) k c h with hm | hacc
    · exact hm
    · exact absurd hacc (by simp)
  · intro k c h
    rcases (show ∃ e, e ∈ entities ∧ jsToString (e idKey) = k ∧
        c = freshEntry e from by
      rcases ucFold_some entities idKey (fun _ => none) k c h with hm | hacc
      · exact hm
      · exact absurd hacc (by simp)) with ⟨e, _, _, hc⟩
    subst hc
    exact ⟨rfl, rfl, by simp [freshEntry]⟩
  · intro e he
    exact ucFold_mem entities idKey (fun _ => none) e he

/-- C9 witness: a one-item list produces a non-absent entry at the
item's stringified id. -/
theorem updateCollection_entries_witness :
    updateCollection [todoWithId] "id" "1" ≠ none :=
  (updateCollection_entries [todoWithId] "id").2.2 todoWithId (by simp)

/-- C10: `setEntityLoading` on an id absent from the collection creates
the entry as loading-true, error-false with no `value` at all, so
`selectEntity` on that entry observes `undefined`. -/
theorem setEntityLoading_absent_creates (C : WithContext EMap) (k : String)
    (h : C.value k = none) :
    (setEntityLoading C k).value k =
      some { value := none, loading := some true,
             error := some (JsVal.vBool false), complete := none } ∧
    selectEntity k (setEntityLoading C k) = none := by
  unfold setEntityLoading selectEntity
  simp [h]

/-- C10 witness: marking absent entity "9" of a concrete collection as
loading creates the value-less entry, and selecting it yields
`undefined`. -/
theorem setEntityLoading_absent_creates_witness :
    (setEntityLoading emptyColl "9").value "9" =
      some { value := none, loading := some true,
             error := some (JsVal.vBool false), complete := none } ∧
    selectEntity "9" (setEntityLoading emptyColl "9") = none :=
  setEntityLoading_absent_creates emptyColl "9" rfl

end RxPatterns
